import Mathlib

/-!
Verification of the content-addressable processing index and task pipeline of
the APK middleware replacement server (`py_server_demo.py`).

The Python source is embedded shallowly: the index file is an insertion-ordered
association list (a JSON object), task summaries and task records are
structures, and the external collaborators (apktool decode/build, zipalign,
apksigner, the HTTP fetcher, the `file`-based architecture probe, the durable
index write) are abstracted by an environment record giving each collaborator's
outcome for the one pipeline execution under study.
-/

namespace ApkServer

open scoped List

/-- A task summary stored in the persistent index: the `task_entry` dict built
at step 10 of `process_apk_task` (`{task_id, pkg_name, so_architecture,
signed_apk_path, file_md5_after, timestamp}`).  `timestamp` models
`time.time()`; only its ordering is ever used, so it is a natural number. -/
structure TaskEntry where
  task_id : String
  pkg_name : String
  so_architecture : String
  signed_apk_path : String
  file_md5_after : String
  timestamp : Nat
  deriving Repr, DecidableEq

/-- One record of the index:
`{"source_md5": ..., "derived_md5s": [...], "tasks": [...]}`. -/
structure SourceEntry where
  source_md5 : String
  derived_md5s : List String
  tasks : List TaskEntry
  deriving Repr, DecidableEq

/-- The content of `index.json`: a JSON object mapping a source md5 to its
entry.  A Python dict is insertion ordered with unique keys, modeled as an
association list. -/
abbrev Index := List (String × SourceEntry)

/-- Python `md5.lower()`.  All characters that occur in an md5 string are
ASCII, so per-character lowering is exact; it is defined over the character
list so that the kernel can evaluate it on concrete strings. -/
def pyLower (s : String) : String := ⟨s.data.map Char.toLower⟩

/-- Python `md5_lower in index` / `index[k]`: lookup of a key in a dict. -/
def lookupIndex : Index → String → Option SourceEntry
  | [], _ => none
  | p :: rest, k => if p.1 = k then some p.2 else lookupIndex rest k

/-- Python `index[k] = f(index[k])`: update the (unique) binding of key `k`. -/
def updateIndex : Index → String → (SourceEntry → SourceEntry) → Index
  | [], _, _ => []
  | p :: rest, k, f =>
    if p.1 = k then (p.1, f p.2) :: updateIndex rest k f
    else p :: updateIndex rest k f

/-- Embedding of `find_source_md5(index, md5)`: return the key itself when it
is a source md5; otherwise scan every record's `derived_md5s` and return the
unique source containing it; on an md5 collision (more than one source) or on a
miss, return `None`. -/
def find_source_md5 (index : Index) (md5 : String) : Option String :=
  let md5_lower := pyLower md5
  if (lookupIndex index md5_lower).isSome then
    some md5_lower
  else
    let found_sources :=
      (index.filter (fun p => decide (md5_lower ∈ p.2.derived_md5s))).map Prod.fst
    if found_sources.length > 1 then
      none
    else if found_sources.length = 1 then
      found_sources.head?
    else
      none

/-- Embedding of `get_source_entry(index, md5)`. -/
def get_source_entry (index : Index) (md5 : String) : Option SourceEntry :=
  match find_source_md5 index md5 with
  | some source_md5 => lookupIndex index source_md5
  | none => none

/-- Python's `max(t :: ts, key=lambda x: x.get("timestamp", 0))`: the running
maximum is replaced only when an element's key is strictly greater, so among
ties the first element encountered wins. -/
def pyMaxByTimestamp (t : TaskEntry) (ts : List TaskEntry) : TaskEntry :=
  ts.foldl (fun acc x => if acc.timestamp < x.timestamp then x else acc) t

/-- Embedding of `get_latest_cached_task(index, file_md5, so_architecture)`:
resolve the md5 to its source entry, then return the task with the greatest
timestamp, optionally restricted to tasks of a given architecture. -/
def get_latest_cached_task (index : Index) (file_md5 : String)
    (so_architecture : Option String := none) : Option TaskEntry :=
  match get_source_entry index file_md5 with
  | none => none
  | some source_entry =>
    match source_entry.tasks with
    | [] => none
    | t :: ts =>
      match so_architecture with
      | some arch =>
        match (t :: ts).filter (fun x => x.so_architecture = arch) with
        | [] => none
        | f :: fs => some (pyMaxByTimestamp f fs)
      | none => some (pyMaxByTimestamp t ts)

/-- Python `tasks.sort(key=lambda x: x.get("timestamp", 0), reverse=True)`:
a stable sort into descending timestamp order. -/
def sortByTimestampDesc (ts : List TaskEntry) : List TaskEntry :=
  ts.mergeSort (fun a b => b.timestamp ≤ a.timestamp)

/-- Python `if derived_md5 and derived_md5 not in index[...]["derived_md5s"]:
... .append(derived_md5)` — the empty string is falsy and duplicates are not
re-added. -/
def appendDerived (derived : List String) (d : Option String) : List String :=
  match d with
  | some s => if s ≠ "" ∧ s ∉ derived then derived ++ [s] else derived
  | none => derived

/-- The retention prune of `add_task_to_index`: with more than 10 tasks
accumulated, keep only the 10 most recent by timestamp and recompute
`derived_md5s` from the retained tasks (the Python `list(set(...))` is a set;
only membership is meaningful, modeled as a deduplicated list). -/
def pruneRecord (entry : SourceEntry) : SourceEntry :=
  if entry.tasks.length > 10 then
    { entry with
      tasks := (sortByTimestampDesc entry.tasks).take 10
      derived_md5s :=
        (((sortByTimestampDesc entry.tasks).take 10).filterMap (fun t =>
          if t.file_md5_after ≠ "" then some t.file_md5_after else none)).dedup }
  else entry

/-- The body of `add_task_to_index` acting on the record stored under
`source_md5`: append the derived md5 when new, append the task entry, then
apply the retention prune. -/
def recordAdd (entry : SourceEntry) (task_entry : TaskEntry)
    (derived_md5 : Option String) : SourceEntry :=
  pruneRecord
    { entry with
      derived_md5s := appendDerived entry.derived_md5s derived_md5
      tasks := entry.tasks ++ [task_entry] }

/-- Embedding of `add_task_to_index(index, source_md5, task_entry,
derived_md5)`: create the record when absent, then apply `recordAdd` to it. -/
def add_task_to_index (index : Index) (source_md5 : String)
    (task_entry : TaskEntry) (derived_md5 : Option String := none) : Index :=
  let index :=
    if (lookupIndex index source_md5).isSome then index
    else index ++ [(source_md5, ⟨source_md5, [], []⟩)]
  updateIndex index source_md5 (fun e => recordAdd e task_entry derived_md5)

/-! The task pipeline (`process_apk_task`) and the `/upload` handler. -/

/-- The four task states of `TaskStatus`. -/
inductive TaskStatus where
  | pending
  | processing
  | complete
  | failed
  deriving Repr, DecidableEq

/-- The `TaskInfo` record kept in the in-memory task table (the fields the
claims are about; `so_md5_before`/`so_md5_after` are JSON objects in the
source, modeled as association lists). -/
structure TaskInfo where
  task_id : String
  status : TaskStatus
  filename : String
  pkg_name : String
  file_md5_before : String
  file_md5_after : Option String := none
  so_md5_before : Option (List (String × String)) := none
  so_md5_after : Option (List (String × String)) := none
  so_architecture : String
  real_so_architecture : Option String := none
  reason : Option String := none
  deriving Repr, DecidableEq

/-- Abstraction of a downloaded component file's content: its md5 and the
architecture `detect_so_architecture` reports for it (`none` = the probe could
not classify it). -/
structure FileData where
  md5 : String
  arch : Option String
  deriving Repr, DecidableEq

/-- Outcomes of the external collaborators during one pipeline execution. -/
structure PipelineEnv where
  /-- `run_apktool_decode`: `none` = decode failed; `some slots` = the content
  of `extracted/lib/<so_architecture>` after extraction, as a mapping from
  component file name to the md5 of the file occupying that slot. -/
  decodeResult : Option (List (String × String))
  /-- `download_file` followed by reading the downloaded file, per URL
  (`none` = the download failed). -/
  fetch : String → Option FileData
  /-- `run_apktool_build` outcome. -/
  rebuildOk : Bool
  /-- `run_zipalign` outcome. -/
  alignOk : Bool
  /-- `run_apksigner` outcome. -/
  signOk : Bool
  /-- `md5sum(signed_apk)`: md5 of the final signed artifact. -/
  signedMd5 : String
  /-- whether the durable write performed by `save_index` succeeds. -/
  saveOk : Bool
  /-- `str(e)` of the exception raised when the durable write fails. -/
  saveErr : String
  /-- `time.time()` when the index entry is created. -/
  now : Nat

/-- The exceptions `process_apk_task` can raise, with their message strings. -/
inductive PipelineErr where
  | decodeFailed
  | noValidSoFiles
  | downloadFailed (so_name so_url : String)
  | detectFailed (so_name : String)
  | archMismatch (so_name requested actual : String)
  | rebuildFailed
  | alignFailed
  | signFailed
  | saveFailed (msg : String)
  deriving Repr, DecidableEq

/-- The `str(e)` of each raised exception. -/
def PipelineErr.message : PipelineErr → String
  | .decodeFailed => "Failed to decode APK"
  | .noValidSoFiles => "No valid SO files to process. All URLs are empty."
  | .downloadFailed n u => "Failed to download SO file: " ++ n ++ " from " ++ u
  | .detectFailed n => "Failed to detect architecture for SO file: " ++ n
  | .archMismatch n req act =>
      "Architecture mismatch for " ++ n ++ ": requested " ++ req ++
        ", but file is " ++ act
  | .rebuildFailed => "Failed to rebuild APK"
  | .alignFailed => "Failed to align APK"
  | .signFailed => "Failed to sign APK"
  | .saveFailed m => m

/-- Python `not so_url or not so_url.strip()`: the URL is empty or blank
(consists of whitespace only). -/
def isBlank (s : String) : Bool := s.data.all (fun c => c.isWhitespace)

/-- Lookup of the file currently occupying a slot of the unpacked artifact. -/
def slotLookup : List (String × String) → String → Option String
  | [], _ => none
  | p :: rest, n => if p.1 = n then some p.2 else slotLookup rest n

/-- `shutil.copy(downloaded_so, lib_path / so_name)`: overwrite the slot, or
create it when absent. -/
def setSlot (slots : List (String × String)) (so_name md5 : String) :
    List (String × String) :=
  if (slotLookup slots so_name).isSome then
    slots.map (fun p => if p.1 = so_name then (p.1, md5) else p)
  else slots ++ [(so_name, md5)]

/-- The per-component audit info collected during step 3
(`so_replacement_info[so_name]`). -/
structure SoReplacementInfo where
  md5_before : String
  md5_after : String
  url : String
  deriving Repr, DecidableEq

/-- Step 3 of `process_apk_task`: download and verify every SO file with a
non-blank URL, in map order, collecting the audit info.  The loop raises on
the first download failure, detection failure or architecture mismatch; the
downloads land in the task's work area, so no slot of the unpacked artifact is
touched here. -/
def fetchVerifyLoop (env : PipelineEnv) (so_architecture : String)
    (slots : List (String × String)) :
    List (String × String) → Except PipelineErr (List (String × SoReplacementInfo))
  | [] => .ok []
  | (so_name, so_url) :: rest =>
    if isBlank so_url then fetchVerifyLoop env so_architecture slots rest
    else
      match env.fetch so_url with
      | none => .error (.downloadFailed so_name so_url)
      | some fd =>
        match fd.arch with
        | none => .error (.detectFailed so_name)
        | some real_so_arch =>
          if real_so_arch ≠ so_architecture then
            .error (.archMismatch so_name so_architecture real_so_arch)
          else
            let md5_before :=
              match slotLookup slots so_name with
              | some m => m
              | none => "none"
            match fetchVerifyLoop env so_architecture slots rest with
            | .error e => .error e
            | .ok infos => .ok ((so_name, ⟨md5_before, fd.md5, so_url⟩) :: infos)

/-- Step 4 of `process_apk_task`: copy every downloaded file into its target
slot (skipping blank URLs).  The content copied for a component is what the
fetcher returned for its URL; a component whose URL was never fetched cannot
occur here because step 3 verified every non-blank entry. -/
def commitReplacements (env : PipelineEnv) (slots : List (String × String)) :
    List (String × String) → List (String × String)
  | [] => slots
  | (so_name, so_url) :: rest =>
    if isBlank so_url then commitReplacements env slots rest
    else
      match env.fetch so_url with
      | some fd => commitReplacements env (setSlot slots so_name fd.md5) rest
      | none => commitReplacements env slots rest

/-- The observable outcome of one pipeline execution. -/
structure PipelineResult where
  /-- the task record after the execution. -/
  task : TaskInfo
  /-- the slots of the unpacked artifact at the end (`none`: decode never
  produced a tree). -/
  extracted : Option (List (String × String))
  /-- the durable index file at the end. -/
  indexFile : Index

/-- Helper for the `except` branch of `process_apk_task`: mark the task FAILED
and record the exception's message as its reason. -/
def failResult (task : TaskInfo) (e : PipelineErr)
    (extracted : Option (List (String × String))) (indexFile : Index) :
    PipelineResult :=
  { task := { task with status := .failed, reason := some e.message }
    extracted := extracted
    indexFile := indexFile }

/-- Embedding of `process_apk_task(task_id, apk_path, so_files,
so_architecture, pkg_name, file_md5)`.  `task0` is the PENDING `TaskInfo`
created at submission (`tasks[task_id]`), and `indexFile` is the durable index
before the task ran.  Stages in order: decode, validate that a non-blank URL
remains, fetch-and-verify each component, commit the replacements into the
slots, rebuild, align, sign, update and persist the index, and only then mark
the task COMPLETE; any raised exception routes to the `except` branch
(`failResult`). -/
def process_apk_task (env : PipelineEnv) (task_id : String) (task0 : TaskInfo)
    (so_files : List (String × String)) (so_architecture pkg_name : String)
    (file_md5 : String) (indexFile : Index) : PipelineResult :=
  let task := { task0 with status := TaskStatus.processing }
  match env.decodeResult with
  | none => failResult task .decodeFailed none indexFile
  | some slots0 =>
    let valid_so_files := so_files.filter (fun p => ! isBlank p.2)
    if valid_so_files.isEmpty then
      failResult task .noValidSoFiles (some slots0) indexFile
    else
      match fetchVerifyLoop env so_architecture slots0 so_files with
      | .error e => failResult task e (some slots0) indexFile
      | .ok so_replacement_info =>
        let slots1 := commitReplacements env slots0 so_files
        let task := { task with
          real_so_architecture := some so_architecture
          so_md5_before :=
            some (so_replacement_info.map (fun p => (p.1, p.2.md5_before)))
          so_md5_after :=
            some (so_replacement_info.map (fun p => (p.1, p.2.md5_after))) }
        if ¬ env.rebuildOk then
          failResult task .rebuildFailed (some slots1) indexFile
        else if ¬ env.alignOk then
          failResult task .alignFailed (some slots1) indexFile
        else if ¬ env.signOk then
          failResult task .signFailed (some slots1) indexFile
        else
          let file_md5_after := env.signedMd5
          let task := { task with file_md5_after := some file_md5_after }
          let task_entry : TaskEntry :=
            { task_id := task_id
              pkg_name := pkg_name
              so_architecture := so_architecture
              signed_apk_path := "processed/" ++ task_id ++ "_signed.apk"
              file_md5_after := file_md5_after
              timestamp := env.now }
          let index1 :=
            add_task_to_index indexFile file_md5 task_entry (some file_md5_after)
          if ¬ env.saveOk then
            failResult task (.saveFailed env.saveErr) (some slots1) indexFile
          else
            { task := { task with status := .complete }
              extracted := some slots1
              indexFile := index1 }

/-! The `/upload` handler. -/

/-- The server state an upload request can touch: the files under
`workdir/uploads` (file name paired with the md5 of its content), the
in-memory task table, and the durable index file. -/
structure ServerState where
  uploads : List (String × String)
  tasks : List (String × TaskInfo)
  indexFile : Index
  deriving Repr, DecidableEq

/-- The HTTP-visible outcome of an upload request. -/
inductive UploadOutcome where
  | rejected (status_code : Nat) (detail : String)
  | accepted (task_id : String)
  deriving Repr, DecidableEq

/-- Python `c in '0123456789abcdefABCDEF'`. -/
def isHexChar (c : Char) : Bool := "0123456789abcdefABCDEF".data.contains c

/-- Python `len(md5) == 32 and all(c in '0123456789abcdefABCDEF' for c in md5)`. -/
def validMd5Format (m : String) : Bool :=
  m.length = 32 && m.toList.all isHexChar

/-- The save-then-unlink sequence of the `/upload` md5-validation failure
path: the uploaded file is written under its fresh name and removed again. -/
def deleteSaved (uploads : List (String × String)) (f : String × String) :
    List (String × String) :=
  (uploads ++ [f]).erase f

/-- The PENDING `TaskInfo` created by `/upload` just before dispatch. -/
def mkPendingTask (task_id filename pkg_name so_architecture file_md5 : String) :
    TaskInfo :=
  { task_id := task_id
    status := .pending
    filename := filename
    pkg_name := pkg_name
    file_md5_before := file_md5
    so_architecture := so_architecture }

/-- Embedding of the `/upload` handler `upload_apk`: validate the architecture
and the `so_files` JSON object, save the uploaded file, validate the optional
`md5` form field (deleting the saved file and rejecting with HTTP 400 on a
format error or a digest mismatch), and create the PENDING task.  The uploaded
bytes are abstracted by their digest `uploadedDigest` (`md5sum(save_path)`).
The background dispatch of `process_apk_task` is modeled separately.  The JSON
well-formedness checks on `so_files` (object of string keys and string values)
are carried by the Lean type; the explicit non-emptiness check remains.  The
already-cached hint (`load_index`/`find_source_md5` before task creation) only
prints and decorates the response, mutating nothing, and is omitted. -/
def upload_apk (st : ServerState) (task_id filename : String)
    (so_files : List (String × String)) (so_architecture pkg_name : String)
    (md5 : Option String) (uploadedDigest : String) :
    ServerState × UploadOutcome :=
  if so_architecture ≠ "arm64-v8a" ∧ so_architecture ≠ "armeabi-v7a" then
    (st, .rejected 400 "so_architecture must be arm64-v8a or armeabi-v7a")
  else if so_files.isEmpty then
    (st, .rejected 400 "so_files cannot be empty")
  else
    match md5 with
    | some m =>
      if ¬ validMd5Format m then
        ({ st with uploads :=
            deleteSaved st.uploads (task_id ++ "_" ++ filename, uploadedDigest) },
          .rejected 400 "Invalid MD5 format. Must be 32 hexadecimal characters.")
      else if uploadedDigest ≠ pyLower m then
        ({ st with uploads :=
            deleteSaved st.uploads (task_id ++ "_" ++ filename, uploadedDigest) },
          .rejected 400
            ("MD5 mismatch. Provided: " ++ pyLower m ++ ", Calculated: " ++
              uploadedDigest))
      else
        ({ st with
            uploads := st.uploads ++ [(task_id ++ "_" ++ filename, uploadedDigest)]
            tasks := st.tasks ++ [(task_id,
              mkPendingTask task_id filename pkg_name so_architecture
                (pyLower m))] },
          UploadOutcome.accepted task_id)
    | none =>
      ({ st with
          uploads := st.uploads ++ [(task_id ++ "_" ++ filename, uploadedDigest)]
          tasks := st.tasks ++ [(task_id,
            mkPendingTask task_id filename pkg_name so_architecture
              uploadedDigest)] },
        UploadOutcome.accepted task_id)

/-! Helper lemmas. -/

/-- Associativity of string concatenation. -/
theorem strAppend_assoc (a b c : String) : a ++ b ++ c = a ++ (b ++ c) := by
  cases a with
  | mk la =>
    cases b with
    | mk lb =>
      cases c with
      | mk lc => exact congrArg String.mk (List.append_assoc la lb lc)

/-- One component's fetch-and-verify outcome, as determined by the
environment alone: the download succeeds and the architecture detected on the
downloaded file equals the requested one. -/
def componentFetchOk (env : PipelineEnv) (arch : String)
    (p : String × String) : Bool :=
  match env.fetch p.2 with
  | some fd => fd.arch = some arch
  | none => false

/-- When the fetch-and-verify loop succeeds, every component with a non-blank
URL was downloaded and its detected architecture matched. -/
theorem fetchVerifyLoop_ok_all_ok {env : PipelineEnv} {arch : String}
    {slots : List (String × String)} {l : List (String × String)}
    {infos : List (String × SoReplacementInfo)}
    (h : fetchVerifyLoop env arch slots l = .ok infos) :
    ∀ p ∈ l, isBlank p.2 = false → componentFetchOk env arch p = true := by
  induction l generalizing infos with
  | nil => intro p hp; exact absurd hp (List.not_mem_nil p)
  | cons q rest ih =>
    obtain ⟨n, u⟩ := q
    rw [fetchVerifyLoop] at h
    by_cases hb : isBlank u = true
    · rw [if_pos hb] at h
      intro p hp hnb
      rcases List.mem_cons.1 hp with rfl | hmem
      · simp [hb] at hnb
      · exact ih h p hmem hnb
    · rw [if_neg hb] at h
      cases hf : env.fetch u with
      | none => simp [hf] at h
      | some fd =>
        simp only [hf] at h
        cases ha : fd.arch with
        | none => simp [ha] at h
        | some a =>
          simp only [ha] at h
          by_cases hae : a ≠ arch
          · rw [if_pos hae] at h; cases h
          · rw [if_neg hae] at h
            push_neg at hae
            cases hrec : fetchVerifyLoop env arch slots rest with
            | error e => simp [hrec] at h
            | ok infos2 =>
              intro p hp hnb
              rcases List.mem_cons.1 hp with rfl | hmem
              · simp [componentFetchOk, hf, ha, hae]
              · exact ih hrec p hmem hnb

/-- When every URL of the map is blank, the fetch-and-verify loop does
nothing and succeeds with an empty result. -/
theorem fetchVerifyLoop_all_blank {env : PipelineEnv} {arch : String}
    {slots : List (String × String)} {l : List (String × String)}
    (h : ∀ p ∈ l, isBlank p.2 = true) :
    fetchVerifyLoop env arch slots l = .ok [] := by
  induction l with
  | nil => rfl
  | cons q rest ih =>
    obtain ⟨n, u⟩ := q
    rw [fetchVerifyLoop, if_pos (h (n, u) (List.mem_cons_self (n, u) rest))]
    exact ih fun p hp => h p (List.mem_cons_of_mem _ hp)

/-! Claim theorems. -/

/-- C1: verify-before-commit.  If any component of the replacement map with
a non-blank URL fails its fetch or its variant verification, then the slots
of the unpacked artifact are exactly what the decode transform produced (no
fetched file was copied into any slot), the durable index is untouched, and
the task ends FAILED — no partial commit ever occurs. -/
theorem C1_verify_before_commit (env : PipelineEnv) (task_id : String)
    (task0 : TaskInfo) (so_files : List (String × String))
    (so_architecture pkg_name file_md5 : String) (indexFile : Index)
    (p : String × String) (hp : p ∈ so_files) (hnb : isBlank p.2 = false)
    (hfail : componentFetchOk env so_architecture p = false) :
    (process_apk_task env task_id task0 so_files so_architecture pkg_name
        file_md5 indexFile).extracted = env.decodeResult ∧
    (process_apk_task env task_id task0 so_files so_architecture pkg_name
        file_md5 indexFile).task.status = .failed ∧
    (process_apk_task env task_id task0 so_files so_architecture pkg_name
        file_md5 indexFile).indexFile = indexFile := by
  unfold process_apk_task
  cases hdec : env.decodeResult with
  | none => simp [failResult]
  | some slots0 =>
    have hvalid : (so_files.filter (fun q => ! isBlank q.2)).isEmpty = false := by
      rw [List.isEmpty_eq_false]
      intro hnil
      have hq := List.filter_eq_nil_iff.1 hnil p hp
      simp [hnb] at hq
    cases hloop : fetchVerifyLoop env so_architecture slots0 so_files with
    | error e => simp [hvalid, hloop, failResult]
    | ok infos =>
      exfalso
      have hok := fetchVerifyLoop_ok_all_ok hloop p hp hnb
      rw [hfail] at hok
      cases hok

/-- C8: a detected-variant mismatch fails the task with a reason naming the
mismatched component, and the durable index is not written. -/
theorem C8_arch_mismatch_fails_no_index_write (env : PipelineEnv)
    (task_id : String) (task0 : TaskInfo) (so_files : List (String × String))
    (so_architecture pkg_name file_md5 : String) (indexFile : Index)
    (slots0 : List (String × String)) (n act : String)
    (hdec : env.decodeResult = some slots0)
    (hloop : fetchVerifyLoop env so_architecture slots0 so_files =
      .error (.archMismatch n so_architecture act)) :
    (process_apk_task env task_id task0 so_files so_architecture pkg_name
        file_md5 indexFile).task.status = .failed ∧
    (process_apk_task env task_id task0 so_files so_architecture pkg_name
        file_md5 indexFile).task.reason =
      some (PipelineErr.archMismatch n so_architecture act).message ∧
    (∃ pre post, (PipelineErr.archMismatch n so_architecture act).message =
      pre ++ n ++ post) ∧
    (process_apk_task env task_id task0 so_files so_architecture pkg_name
        file_md5 indexFile).indexFile = indexFile := by
  have hvalid : (so_files.filter (fun q => ! isBlank q.2)).isEmpty = false := by
    cases hv : (so_files.filter (fun q => ! isBlank q.2)).isEmpty with
    | false => rfl
    | true =>
      exfalso
      have hall : ∀ q ∈ so_files, isBlank q.2 = true := by
        intro q hq
        have h2 := List.filter_eq_nil_iff.1 (List.isEmpty_iff.1 hv) q hq
        simpa using h2
      rw [fetchVerifyLoop_all_blank hall] at hloop
      cases hloop
  unfold process_apk_task
  rw [hdec]
  refine ⟨?_, ?_, ?_, ?_⟩
  · simp [hvalid, hloop, failResult]
  · simp [hvalid, hloop, failResult]
  · exact ⟨"Architecture mismatch for ",
      ": requested " ++ so_architecture ++ ", but file is " ++ act, by
        simp [PipelineErr.message, strAppend_assoc]⟩
  · simp [hvalid, hloop, failResult]

/-- C9: when the durable index write performed at finalize fails, the task is
FAILED (never COMPLETE) with the failure as its reason, and the durable index
file is unchanged. -/
theorem C9_persistence_failure_fails_task (env : PipelineEnv)
    (task_id : String) (task0 : TaskInfo) (so_files : List (String × String))
    (so_architecture pkg_name file_md5 : String) (indexFile : Index)
    (slots0 : List (String × String))
    (infos : List (String × SoReplacementInfo))
    (hdec : env.decodeResult = some slots0)
    (hvalid : (so_files.filter (fun q => ! isBlank q.2)).isEmpty = false)
    (hloop : fetchVerifyLoop env so_architecture slots0 so_files = .ok infos)
    (hre : env.rebuildOk = true) (hal : env.alignOk = true)
    (hsi : env.signOk = true) (hsave : env.saveOk = false) :
    (process_apk_task env task_id task0 so_files so_architecture pkg_name
        file_md5 indexFile).task.status = .failed ∧
    (process_apk_task env task_id task0 so_files so_architecture pkg_name
        file_md5 indexFile).task.status ≠ .complete ∧
    (process_apk_task env task_id task0 so_files so_architecture pkg_name
        file_md5 indexFile).task.reason = some env.saveErr ∧
    (process_apk_task env task_id task0 so_files so_architecture pkg_name
        file_md5 indexFile).indexFile = indexFile := by
  unfold process_apk_task
  rw [hdec]
  simp [hvalid, hloop, hre, hal, hsi, hsave, failResult, PipelineErr.message]

/-! Concrete sample data used to instantiate the claim theorems. -/

/-- A pipeline environment in which every collaborator succeeds: the fetcher
serves one arm64 component at `http://good`. -/
def envOk : PipelineEnv :=
  { decodeResult := some [("libgame.so", "11111111111111111111111111111111")]
    fetch := fun u =>
      if u = "http://good" then
        some ⟨"22222222222222222222222222222222", some "arm64-v8a"⟩
      else none
    rebuildOk := true
    alignOk := true
    signOk := true
    signedMd5 := "33333333333333333333333333333333"
    saveOk := true
    saveErr := "disk full"
    now := 7 }

/-- A PENDING task as created by `/upload`. -/
def taskPending : TaskInfo :=
  { task_id := "tid-1"
    status := .pending
    filename := "app.apk"
    pkg_name := "com.example.app"
    file_md5_before := "44444444444444444444444444444444"
    so_architecture := "arm64-v8a" }

/-- Environment for the partial-fetch scenario: `http://a` serves a valid
arm64 component, every other URL fails to download. -/
def envPartialFetch : PipelineEnv :=
  { envOk with
    fetch := fun u =>
      if u = "http://a" then
        some ⟨"55555555555555555555555555555555", some "arm64-v8a"⟩
      else none }

/-- Environment for the variant-mismatch scenario: `http://mm` serves a
component detected as armeabi-v7a. -/
def envMismatch : PipelineEnv :=
  { envOk with
    fetch := fun u =>
      if u = "http://mm" then
        some ⟨"66666666666666666666666666666666", some "armeabi-v7a"⟩
      else none }

/-- Witness for C1: component A (`http://a`) downloads fine, component B
(`http://bad`) fails its fetch; the slots stay exactly the decode output, the
index is untouched and the task is FAILED. -/
theorem C1_verify_before_commit_witness :
    (("libb.so", "http://bad") ∈
      [("liba.so", "http://a"), ("libb.so", "http://bad")]) ∧
    isBlank "http://bad" = false ∧
    componentFetchOk envPartialFetch "arm64-v8a" ("libb.so", "http://bad") = false ∧
    ((process_apk_task envPartialFetch "tid-1" taskPending
        [("liba.so", "http://a"), ("libb.so", "http://bad")] "arm64-v8a"
        "com.example.app" "44444444444444444444444444444444" []).extracted =
      envPartialFetch.decodeResult ∧
    (process_apk_task envPartialFetch "tid-1" taskPending
        [("liba.so", "http://a"), ("libb.so", "http://bad")] "arm64-v8a"
        "com.example.app" "44444444444444444444444444444444" []).task.status =
      .failed ∧
    (process_apk_task envPartialFetch "tid-1" taskPending
        [("liba.so", "http://a"), ("libb.so", "http://bad")] "arm64-v8a"
        "com.example.app" "44444444444444444444444444444444" []).indexFile = []) :=
  ⟨by decide, by decide, by decide,
    C1_verify_before_commit envPartialFetch "tid-1" taskPending
      [("liba.so", "http://a"), ("libb.so", "http://bad")] "arm64-v8a"
      "com.example.app" "44444444444444444444444444444444" []
      ("libb.so", "http://bad") (by decide) (by decide) (by decide)⟩

/-- Witness for C8: a component requested as arm64-v8a is detected as
armeabi-v7a; the task fails with a reason naming the component and the index
is not written. -/
theorem C8_arch_mismatch_witness :
    envMismatch.decodeResult =
      some [("libgame.so", "11111111111111111111111111111111")] ∧
    fetchVerifyLoop envMismatch "arm64-v8a"
        [("libgame.so", "11111111111111111111111111111111")]
        [("libx.so", "http://mm")] =
      .error (.archMismatch "libx.so" "arm64-v8a" "armeabi-v7a") ∧
    ((process_apk_task envMismatch "tid-1" taskPending [("libx.so", "http://mm")]
        "arm64-v8a" "com.example.app" "44444444444444444444444444444444"
        []).task.status = .failed ∧
    (process_apk_task envMismatch "tid-1" taskPending [("libx.so", "http://mm")]
        "arm64-v8a" "com.example.app" "44444444444444444444444444444444"
        []).task.reason =
      some (PipelineErr.archMismatch "libx.so" "arm64-v8a" "armeabi-v7a").message ∧
    (∃ pre post, (PipelineErr.archMismatch "libx.so" "arm64-v8a"
        "armeabi-v7a").message = pre ++ "libx.so" ++ post) ∧
    (process_apk_task envMismatch "tid-1" taskPending [("libx.so", "http://mm")]
        "arm64-v8a" "com.example.app" "44444444444444444444444444444444"
        []).indexFile = []) :=
  ⟨by decide, by rfl,
    C8_arch_mismatch_fails_no_index_write envMismatch "tid-1" taskPending
      [("libx.so", "http://mm")] "arm64-v8a" "com.example.app"
      "44444444444444444444444444444444" []
      [("libgame.so", "11111111111111111111111111111111")] "libx.so"
      "armeabi-v7a" (by decide) (by rfl)⟩

/-- Witness for C9: all stages succeed but the durable index write fails; the
task is FAILED with the write failure as its reason and the index file is
unchanged. -/
theorem C9_persistence_failure_witness :
    { envOk with saveOk := false }.saveOk = false ∧
    ((process_apk_task { envOk with saveOk := false } "tid-1" taskPending
        [("libgame.so", "http://good")] "arm64-v8a" "com.example.app"
        "44444444444444444444444444444444" []).task.status = .failed ∧
    (process_apk_task { envOk with saveOk := false } "tid-1" taskPending
        [("libgame.so", "http://good")] "arm64-v8a" "com.example.app"
        "44444444444444444444444444444444" []).task.status ≠ .complete ∧
    (process_apk_task { envOk with saveOk := false } "tid-1" taskPending
        [("libgame.so", "http://good")] "arm64-v8a" "com.example.app"
        "44444444444444444444444444444444" []).task.reason =
      some { envOk with saveOk := false }.saveErr ∧
    (process_apk_task { envOk with saveOk := false } "tid-1" taskPending
        [("libgame.so", "http://good")] "arm64-v8a" "com.example.app"
        "44444444444444444444444444444444" []).indexFile = []) :=
  ⟨by decide,
    (C9_persistence_failure_fails_task { envOk with saveOk := false } "tid-1"
      taskPending [("libgame.so", "http://good")] "arm64-v8a" "com.example.app"
      "44444444444444444444444444444444" []
      [("libgame.so", "11111111111111111111111111111111")]
      [("libgame.so", ⟨"11111111111111111111111111111111",
        "22222222222222222222222222222222", "http://good"⟩)]
      (by decide) (by decide) (by rfl) (by decide) (by decide) (by decide)
      (by decide))⟩

/-- C2: for a hash that is not a record's key, resolution fails closed when
two or more records list the hash as derived (an md5 collision returns
not-found, never one of the records), and returns the unique source record's
key when exactly one record lists it. -/
theorem C2_resolve_collision_fails_closed (index : Index) (h : String)
    (hkey : lookupIndex index (pyLower h) = none) :
    (2 ≤ (index.filter (fun p => decide (pyLower h ∈ p.2.derived_md5s))).length →
      find_source_md5 index h = none) ∧
    ∀ s e, index.filter (fun p => decide (pyLower h ∈ p.2.derived_md5s)) = [(s, e)] →
      find_source_md5 index h = some s := by
  constructor
  · intro h2
    have hgt : (index.filter
        (fun p => decide (pyLower h ∈ p.2.derived_md5s))).length > 1 := by omega
    simp only [find_source_md5, hkey, Option.isSome_none, Bool.false_eq_true,
      if_false, List.length_map, hgt, if_true]
  · intro s e hse
    simp only [find_source_md5, hkey, Option.isSome_none, Bool.false_eq_true,
      if_false, hse]
    simp

/-- Witness for C2: with two records both listing `cc` as a derived hash,
resolution returns not-found; with exactly one, it returns that record. -/
theorem C2_resolve_collision_witness :
    lookupIndex [("a1", ⟨"a1", ["cc"], []⟩), ("b1", ⟨"b1", ["cc"], []⟩)]
      (pyLower "cc") = none ∧
    find_source_md5 [("a1", ⟨"a1", ["cc"], []⟩), ("b1", ⟨"b1", ["cc"], []⟩)]
      "cc" = none ∧
    find_source_md5 [("a1", ⟨"a1", ["cc"], []⟩)] "cc" = some "a1" :=
  ⟨by decide,
    (C2_resolve_collision_fails_closed
      [("a1", ⟨"a1", ["cc"], []⟩), ("b1", ⟨"b1", ["cc"], []⟩)] "cc"
      (by decide)).1 (by decide),
    (C2_resolve_collision_fails_closed [("a1", ⟨"a1", ["cc"], []⟩)] "cc"
      (by decide)).2 "a1" ⟨"a1", ["cc"], []⟩ (by decide)⟩

/-- C10: an `/upload` request that supplies an `md5` form field that is
malformed (not 32 hex characters) or that differs from the digest of the
uploaded bytes is rejected with HTTP 400, the file saved for the request is
deleted again, and no task and no index entry is created — the server state
is unchanged. -/
theorem C10_upload_md5_rejected_state_unchanged (st : ServerState)
    (task_id filename : String) (so_files : List (String × String))
    (so_architecture pkg_name : String) (m uploadedDigest : String)
    (hfresh : (task_id ++ "_" ++ filename, uploadedDigest) ∉ st.uploads)
    (hbad : validMd5Format m = false ∨ uploadedDigest ≠ pyLower m) :
    ∃ detail, upload_apk st task_id filename so_files so_architecture pkg_name
      (some m) uploadedDigest = (st, .rejected 400 detail) := by
  have herase : deleteSaved st.uploads
      (task_id ++ "_" ++ filename, uploadedDigest) = st.uploads := by
    rw [deleteSaved, List.erase_append_right _ hfresh, List.erase_cons_head,
      List.append_nil]
  simp only [upload_apk]
  by_cases harch : so_architecture ≠ "arm64-v8a" ∧ so_architecture ≠ "armeabi-v7a"
  · rw [if_pos harch]
    exact ⟨_, rfl⟩
  · rw [if_neg harch]
    by_cases hempty : so_files.isEmpty = true
    · rw [if_pos hempty]
      exact ⟨_, rfl⟩
    · rw [if_neg hempty]
      cases hv : validMd5Format m with
      | false =>
        rw [if_pos (by simp [hv])]
        exact ⟨_, by rw [herase]⟩
      | true =>
        rcases hbad with hb | hb
        · rw [hv] at hb; cases hb
        · rw [if_neg (by simp [hv]), if_pos hb]
          exact ⟨_, by rw [herase]⟩

/-- Witness for C10: a malformed `md5` field is rejected and the empty server
state is unchanged. -/
theorem C10_upload_md5_rejected_witness :
    (("tid-1" ++ "_" ++ "app.apk", "44444444444444444444444444444444") ∉
      ([] : List (String × String))) ∧
    validMd5Format "xyz" = false ∧
    ∃ detail, upload_apk ⟨[], [], []⟩ "tid-1" "app.apk" [("comp.bin", "http://u")]
      "arm64-v8a" "com.example.app" (some "xyz")
      "44444444444444444444444444444444" =
      (⟨[], [], []⟩, .rejected 400 detail) :=
  ⟨by decide, by decide,
    C10_upload_md5_rejected_state_unchanged ⟨[], [], []⟩ "tid-1" "app.apk"
      [("comp.bin", "http://u")] "arm64-v8a" "com.example.app" "xyz"
      "44444444444444444444444444444444" (by decide) (Or.inl (by decide))⟩

/-- Counterexample to C7 as stated: the replacement map `{"comp.bin": ""}`
(one entry, blank URL) is NOT rejected before a Task is created — the upload
is accepted and a task appears in the table — and the pipeline does run: the
artifact is unpacked (the decode transform produced the extracted tree)
before stage 3 fails the task. -/
theorem C7_blank_map_counterexample :
    (upload_apk ⟨[], [], []⟩ "tid-1" "app.apk" [("comp.bin", "")] "arm64-v8a"
        "com.example.app" none "44444444444444444444444444444444").2 =
      .accepted "tid-1" ∧
    (upload_apk ⟨[], [], []⟩ "tid-1" "app.apk" [("comp.bin", "")] "arm64-v8a"
        "com.example.app" none "44444444444444444444444444444444").1.tasks ≠ [] ∧
    (process_apk_task envOk "tid-1" taskPending [("comp.bin", "")] "arm64-v8a"
        "com.example.app" "44444444444444444444444444444444" []).extracted =
      some [("libgame.so", "11111111111111111111111111111111")] ∧
    (process_apk_task envOk "tid-1" taskPending [("comp.bin", "")] "arm64-v8a"
        "com.example.app" "44444444444444444444444444444444" []).task.status =
      .failed := by
  refine ⟨by decide, by decide, by decide, by decide⟩

/-- C7 amended: a submission whose component-replacement map is non-empty but
has only blank URLs passes the `/upload` validation — a PENDING Task is
created — and the pipeline then runs: the artifact is unpacked, stage 3 fails
the task with reason "No valid SO files to process. All URLs are empty.", no
component is fetched or committed (the slots equal the decode output), and
the index is not written. -/
theorem C7_blank_map_fails_inside_pipeline (st : ServerState)
    (task_id filename : String) (so_files : List (String × String))
    (so_architecture pkg_name digest : String) (env : PipelineEnv)
    (task0 : TaskInfo) (file_md5 : String) (indexFile : Index)
    (slots0 : List (String × String))
    (hne : so_files ≠ [])
    (hblank : ∀ p ∈ so_files, isBlank p.2 = true)
    (harch : so_architecture = "arm64-v8a" ∨ so_architecture = "armeabi-v7a")
    (hdec : env.decodeResult = some slots0) :
    (∃ t, (upload_apk st task_id filename so_files so_architecture pkg_name
        none digest).2 = .accepted task_id ∧
      (upload_apk st task_id filename so_files so_architecture pkg_name
        none digest).1.tasks = st.tasks ++ [(task_id, t)] ∧
      t.status = .pending) ∧
    (process_apk_task env task_id task0 so_files so_architecture pkg_name
        file_md5 indexFile).task.status = .failed ∧
    (process_apk_task env task_id task0 so_files so_architecture pkg_name
        file_md5 indexFile).task.reason =
      some "No valid SO files to process. All URLs are empty." ∧
    (process_apk_task env task_id task0 so_files so_architecture pkg_name
        file_md5 indexFile).extracted = some slots0 ∧
    (process_apk_task env task_id task0 so_files so_architecture pkg_name
        file_md5 indexFile).indexFile = indexFile := by
  have hvalid : (so_files.filter (fun q => ! isBlank q.2)).isEmpty = true := by
    rw [List.isEmpty_iff, List.filter_eq_nil_iff]
    intro p hp
    simp [hblank p hp]
  constructor
  · unfold upload_apk
    rw [if_neg (by rcases harch with rfl | rfl <;> simp)]
    rw [if_neg (by simp [List.isEmpty_eq_false.2 hne])]
    exact ⟨_, rfl, rfl, rfl⟩
  · unfold process_apk_task
    rw [hdec]
    simp [hvalid, failResult, PipelineErr.message]

/-- Witness for C7: the concrete blank-URL map from the spec scenario. -/
theorem C7_blank_map_witness :
    ([("comp.bin", "")] : List (String × String)) ≠ [] ∧
    (∀ p ∈ ([("comp.bin", "")] : List (String × String)), isBlank p.2 = true) ∧
    envOk.decodeResult = some [("libgame.so", "11111111111111111111111111111111")] ∧
    ((∃ t, (upload_apk ⟨[], [], []⟩ "tid-1" "app.apk" [("comp.bin", "")]
        "arm64-v8a" "com.example.app" none
        "44444444444444444444444444444444").2 = .accepted "tid-1" ∧
      (upload_apk ⟨[], [], []⟩ "tid-1" "app.apk" [("comp.bin", "")] "arm64-v8a"
        "com.example.app" none "44444444444444444444444444444444").1.tasks =
        ([] : List (String × TaskInfo)) ++ [("tid-1", t)] ∧
      t.status = .pending) ∧
    (process_apk_task envOk "tid-1" taskPending [("comp.bin", "")] "arm64-v8a"
        "com.example.app" "44444444444444444444444444444444" []).task.status =
      .failed ∧
    (process_apk_task envOk "tid-1" taskPending [("comp.bin", "")] "arm64-v8a"
        "com.example.app" "44444444444444444444444444444444" []).task.reason =
      some "No valid SO files to process. All URLs are empty." ∧
    (process_apk_task envOk "tid-1" taskPending [("comp.bin", "")] "arm64-v8a"
        "com.example.app" "44444444444444444444444444444444" []).extracted =
      some [("libgame.so", "11111111111111111111111111111111")] ∧
    (process_apk_task envOk "tid-1" taskPending [("comp.bin", "")] "arm64-v8a"
        "com.example.app" "44444444444444444444444444444444" []).indexFile = []) :=
  ⟨by decide, by decide, by decide,
    C7_blank_map_fails_inside_pipeline ⟨[], [], []⟩ "tid-1" "app.apk"
      [("comp.bin", "")] "arm64-v8a" "com.example.app"
      "44444444444444444444444444444444" envOk taskPending
      "44444444444444444444444444444444" [] _ (by decide) (by decide)
      (Or.inl rfl) (by decide)⟩

/-! Characterization of Python `max` on task lists. -/

/-- The running maximum never drops below the initial element. -/
theorem pyMaxByTimestamp_init_le (t : TaskEntry) (l : List TaskEntry) :
    t.timestamp ≤ (pyMaxByTimestamp t l).timestamp := by
  induction l generalizing t with
  | nil => exact Nat.le_refl _
  | cons x xs ih =>
    have hstep : pyMaxByTimestamp t (x :: xs) =
        pyMaxByTimestamp (if t.timestamp < x.timestamp then x else t) xs := rfl
    rw [hstep]
    by_cases hx : t.timestamp < x.timestamp
    · rw [if_pos hx]
      exact Nat.le_trans (Nat.le_of_lt hx) (ih x)
    · rw [if_neg hx]
      exact ih t

/-- Python `max` returns the first maximal element: the result splits the
input into a strictly-smaller prefix and a no-larger suffix. -/
theorem pyMaxByTimestamp_split (t : TaskEntry) (l : List TaskEntry) :
    ∃ l₁ l₂, t :: l = l₁ ++ pyMaxByTimestamp t l :: l₂ ∧
      (∀ u ∈ l₁, u.timestamp < (pyMaxByTimestamp t l).timestamp) ∧
      ∀ u ∈ l₂, u.timestamp ≤ (pyMaxByTimestamp t l).timestamp := by
  induction l generalizing t with
  | nil => exact ⟨[], [], rfl, by simp, by simp⟩
  | cons x xs ih =>
    have hstep : pyMaxByTimestamp t (x :: xs) =
        pyMaxByTimestamp (if t.timestamp < x.timestamp then x else t) xs := rfl
    rw [hstep]
    by_cases hx : t.timestamp < x.timestamp
    · rw [if_pos hx]
      rcases ih x with ⟨m₁, m₂, hsp, h₁, h₂⟩
      refine ⟨t :: m₁, m₂, ?_, ?_, h₂⟩
      · rw [List.cons_append, ← hsp]
      · intro u hu
        rcases List.mem_cons.1 hu with rfl | hm
        · exact Nat.lt_of_lt_of_le hx (pyMaxByTimestamp_init_le x xs)
        · exact h₁ u hm
    · rw [if_neg hx]
      rcases ih t with ⟨m₁, m₂, hsp, h₁, h₂⟩
      cases m₁ with
      | nil =>
        simp only [List.nil_append] at hsp
        injection hsp with hhead htail
        refine ⟨[], x :: m₂, ?_, by simp, ?_⟩
        · rw [List.nil_append, ← hhead, htail]
        · intro u hu
          rcases List.mem_cons.1 hu with rfl | hm
          · rw [← hhead]
            exact Nat.le_of_not_lt hx
          · exact h₂ u hm
      | cons a m₁' =>
        rw [List.cons_append] at hsp
        injection hsp with hhead htail
        subst hhead
        refine ⟨t :: x :: m₁', m₂, ?_, ?_, h₂⟩
        · rw [List.cons_append, List.cons_append, ← htail]
        · intro u hu
          have hts : t.timestamp < (pyMaxByTimestamp t xs).timestamp :=
            h₁ t (List.mem_cons_self t m₁')
          rcases List.mem_cons.1 hu with rfl | hm
          · exact hts
          · rcases List.mem_cons.1 hm with rfl | hm'
            · exact Nat.lt_of_le_of_lt (Nat.le_of_not_lt hx) hts
            · exact h₁ u (List.mem_cons_of_mem _ hm')

/-- Counterexample to C5 as stated: with two distinct entries sharing the
maximal timestamp, `get_latest_cached_task` returns the one encountered
FIRST in the history, not the one encountered last (Python `max` keeps the
first maximal element). -/
theorem C5_latest_tie_counterexample :
    get_latest_cached_task
      [("aa", ⟨"aa", ["bb"],
        [⟨"t1", "pkg", "arm64-v8a", "p1", "bb", 5⟩,
         ⟨"t2", "pkg", "arm64-v8a", "p2", "bb", 5⟩]⟩)] "aa" none =
      some ⟨"t1", "pkg", "arm64-v8a", "p1", "bb", 5⟩ ∧
    (⟨"t1", "pkg", "arm64-v8a", "p1", "bb", 5⟩ : TaskEntry) ≠
      ⟨"t2", "pkg", "arm64-v8a", "p2", "bb", 5⟩ ∧
    (⟨"t1", "pkg", "arm64-v8a", "p1", "bb", 5⟩ : TaskEntry).timestamp =
      (⟨"t2", "pkg", "arm64-v8a", "p2", "bb", 5⟩ : TaskEntry).timestamp := by
  refine ⟨by decide, by decide, by decide⟩

/-- C5 amended: `latest(hash, variant?)` returns a most-recently-timestamped
entry of the (optionally variant-filtered) history, and a timestamp tie is
broken toward the entry encountered FIRST in the bounded history: every
entry strictly before the returned one has a strictly smaller timestamp and
every entry after it has a timestamp no larger. -/
theorem C5_latest_returns_first_maximal (index : Index) (hash : String)
    (archQ : Option String) (s : String) (entry : SourceEntry)
    (sel : List TaskEntry)
    (hfind : find_source_md5 index hash = some s)
    (hget : lookupIndex index s = some entry)
    (hsel : sel = match archQ with
      | some a => entry.tasks.filter (fun x => x.so_architecture = a)
      | none => entry.tasks)
    (hne : sel ≠ []) :
    ∃ t l₁ l₂, get_latest_cached_task index hash archQ = some t ∧
      sel = l₁ ++ t :: l₂ ∧
      (∀ u ∈ l₁, u.timestamp < t.timestamp) ∧
      ∀ u ∈ l₂, u.timestamp ≤ t.timestamp := by
  simp only [get_latest_cached_task, get_source_entry, hfind, hget]
  cases htasks : entry.tasks with
  | nil =>
    exfalso
    apply hne
    rw [hsel]
    cases archQ <;> simp [htasks]
  | cons t ts =>
    cases archQ with
    | none =>
      rcases pyMaxByTimestamp_split t ts with ⟨l₁, l₂, hsp, h₁, h₂⟩
      refine ⟨pyMaxByTimestamp t ts, l₁, l₂, by simp, ?_, h₁, h₂⟩
      rw [hsel, htasks]
      exact hsp
    | some a =>
      cases hfil : (t :: ts).filter (fun x => decide (x.so_architecture = a)) with
      | nil =>
        exfalso
        apply hne
        rw [hsel, htasks]
        exact hfil
      | cons f fs =>
        rcases pyMaxByTimestamp_split f fs with ⟨l₁, l₂, hsp, h₁, h₂⟩
        refine ⟨pyMaxByTimestamp f fs, l₁, l₂, by simp [hfil], ?_, h₁, h₂⟩
        rw [hsel, htasks]
        simp only [hfil]
        exact hsp

/-- Witness for C5 amended: a history with a strictly older entry followed by
two tied maximal entries. -/
theorem C5_latest_returns_first_maximal_witness :
    find_source_md5
      [("aa", ⟨"aa", ["bb"],
        [⟨"t0", "pkg", "arm64-v8a", "p0", "bb", 3⟩,
         ⟨"t1", "pkg", "arm64-v8a", "p1", "bb", 5⟩,
         ⟨"t2", "pkg", "arm64-v8a", "p2", "bb", 5⟩]⟩)] "aa" = some "aa" ∧
    (∃ t l₁ l₂,
      get_latest_cached_task
        [("aa", ⟨"aa", ["bb"],
          [⟨"t0", "pkg", "arm64-v8a", "p0", "bb", 3⟩,
           ⟨"t1", "pkg", "arm64-v8a", "p1", "bb", 5⟩,
           ⟨"t2", "pkg", "arm64-v8a", "p2", "bb", 5⟩]⟩)] "aa" none = some t ∧
      ([⟨"t0", "pkg", "arm64-v8a", "p0", "bb", 3⟩,
        ⟨"t1", "pkg", "arm64-v8a", "p1", "bb", 5⟩,
        ⟨"t2", "pkg", "arm64-v8a", "p2", "bb", 5⟩] : List TaskEntry) =
        l₁ ++ t :: l₂ ∧
      (∀ u ∈ l₁, u.timestamp < t.timestamp) ∧
      ∀ u ∈ l₂, u.timestamp ≤ t.timestamp) :=
  ⟨by decide,
    C5_latest_returns_first_maximal
      [("aa", ⟨"aa", ["bb"],
        [⟨"t0", "pkg", "arm64-v8a", "p0", "bb", 3⟩,
         ⟨"t1", "pkg", "arm64-v8a", "p1", "bb", 5⟩,
         ⟨"t2", "pkg", "arm64-v8a", "p2", "bb", 5⟩]⟩)] "aa" none "aa"
      ⟨"aa", ["bb"],
        [⟨"t0", "pkg", "arm64-v8a", "p0", "bb", 3⟩,
         ⟨"t1", "pkg", "arm64-v8a", "p1", "bb", 5⟩,
         ⟨"t2", "pkg", "arm64-v8a", "p2", "bb", 5⟩]⟩ _
      (by decide) (by decide) rfl (by decide)⟩

/-! Lookup and update lemmas for the association-list index. -/

/-- Lookup distributes over append when the key misses the prefix. -/
theorem lookupIndex_append {index : Index} {k : String}
    (h : lookupIndex index k = none) (l : Index) :
    lookupIndex (index ++ l) k = lookupIndex l k := by
  induction index with
  | nil => rfl
  | cons p rest ih =>
    by_cases hp : p.1 = k
    · rw [lookupIndex, if_pos hp] at h
      cases h
    · rw [lookupIndex, if_neg hp] at h
      rw [List.cons_append, lookupIndex, if_neg hp]
      exact ih h

/-- Updating a key rewrites exactly that key's value under lookup. -/
theorem lookupIndex_updateIndex_self (index : Index) (k : String)
    (f : SourceEntry → SourceEntry) :
    lookupIndex (updateIndex index k f) k = (lookupIndex index k).map f := by
  induction index with
  | nil => rfl
  | cons p rest ih =>
    by_cases hp : p.1 = k
    · simp [updateIndex, lookupIndex, hp]
    · rw [updateIndex, if_neg hp, lookupIndex, lookupIndex, if_neg hp, if_neg hp]
      exact ih

/-- Updating one key leaves every other key's lookup unchanged. -/
theorem lookupIndex_updateIndex_ne {index : Index} {k k' : String}
    (h : k' ≠ k) (f : SourceEntry → SourceEntry) :
    lookupIndex (updateIndex index k f) k' = lookupIndex index k' := by
  induction index with
  | nil => rfl
  | cons p rest ih =>
    by_cases hp : p.1 = k
    · rw [updateIndex, if_pos hp, lookupIndex, lookupIndex,
        if_neg (fun he => h (he.symm.trans hp)),
        if_neg (fun he => h (he.symm.trans hp))]
      exact ih
    · rw [updateIndex, if_neg hp, lookupIndex, lookupIndex]
      by_cases hpk : p.1 = k'
      · rw [if_pos hpk, if_pos hpk]
      · rw [if_neg hpk, if_neg hpk]
        exact ih

/-- The effect of `add_task_to_index` on its own record: the record (fresh
when previously absent) passes through `recordAdd`. -/
theorem lookupIndex_add_task (index : Index) (A : String) (e : TaskEntry)
    (d : Option String) :
    lookupIndex (add_task_to_index index A e d) A =
      some (recordAdd
        (match lookupIndex index A with
          | some r => r
          | none => ⟨A, [], []⟩) e d) := by
  simp only [add_task_to_index]
  cases hl : lookupIndex index A with
  | some r =>
    simp only [hl, Option.isSome_some, if_true]
    rw [lookupIndex_updateIndex_self, hl]
    rfl
  | none =>
    simp only [hl, Option.isSome_none, Bool.false_eq_true, if_false]
    rw [lookupIndex_updateIndex_self, lookupIndex_append hl]
    simp [lookupIndex]

/-- Counterexample to C6 as stated: `record_success` is not an idempotent
append — two calls with identical arguments leave a different index than one
call (the task summary is appended twice). -/
theorem C6_record_success_not_idempotent :
    add_task_to_index
      (add_task_to_index [] "aa" ⟨"t1", "pkg", "arm64-v8a", "p1", "bb", 5⟩
        (some "bb"))
      "aa" ⟨"t1", "pkg", "arm64-v8a", "p1", "bb", 5⟩ (some "bb") ≠
    add_task_to_index [] "aa" ⟨"t1", "pkg", "arm64-v8a", "p1", "bb", 5⟩
      (some "bb") := by
  decide

/-- C6 amended: each `record_success` call appends the summary to the record's
history (so two identical calls yield the entry twice), while the derived-hash
insertion alone is idempotent: starting without the record, one call yields
history `[e]` with derived set `[B]`, and a second identical call yields
history `[e, e]` with the same derived set `[B]`. -/
theorem C6_record_success_appends_derived_idempotent (index : Index)
    (A B : String) (e : TaskEntry)
    (habs : lookupIndex index A = none) (hB : B ≠ "") :
    lookupIndex (add_task_to_index index A e (some B)) A =
      some ⟨A, [B], [e]⟩ ∧
    lookupIndex (add_task_to_index (add_task_to_index index A e (some B)) A e
        (some B)) A = some ⟨A, [B], [e, e]⟩ := by
  have hrec1 : recordAdd ⟨A, [], []⟩ e (some B) = ⟨A, [B], [e]⟩ := by
    simp [recordAdd, appendDerived, pruneRecord, hB]
  have h1 : lookupIndex (add_task_to_index index A e (some B)) A =
      some ⟨A, [B], [e]⟩ := by
    rw [lookupIndex_add_task, habs, hrec1]
  refine ⟨h1, ?_⟩
  rw [lookupIndex_add_task, h1]
  simp [recordAdd, appendDerived, pruneRecord]

/-- Witness for C6 amended: the concrete repeated call. -/
theorem C6_record_success_appends_witness :
    lookupIndex ([] : Index) "aa" = none ∧
    ("bb" : String) ≠ "" ∧
    (lookupIndex (add_task_to_index [] "aa"
        ⟨"t1", "pkg", "arm64-v8a", "p1", "bb", 5⟩ (some "bb")) "aa" =
      some ⟨"aa", ["bb"], [⟨"t1", "pkg", "arm64-v8a", "p1", "bb", 5⟩]⟩ ∧
    lookupIndex (add_task_to_index (add_task_to_index [] "aa"
        ⟨"t1", "pkg", "arm64-v8a", "p1", "bb", 5⟩ (some "bb")) "aa"
        ⟨"t1", "pkg", "arm64-v8a", "p1", "bb", 5⟩ (some "bb")) "aa" =
      some ⟨"aa", ["bb"], [⟨"t1", "pkg", "arm64-v8a", "p1", "bb", 5⟩,
        ⟨"t1", "pkg", "arm64-v8a", "p1", "bb", 5⟩]⟩) :=
  ⟨by decide, by decide,
    C6_record_success_appends_derived_idempotent [] "aa" "bb"
      ⟨"t1", "pkg", "arm64-v8a", "p1", "bb", 5⟩ (by decide) (by decide)⟩

/-- Lookup misses exactly the keys outside the key list. -/
theorem lookupIndex_eq_none {l : Index} {k : String} :
    lookupIndex l k = none ↔ k ∉ l.map Prod.fst := by
  induction l with
  | nil => simp [lookupIndex]
  | cons p rest ih =>
    rw [lookupIndex, List.map_cons]
    by_cases hp : p.1 = k
    · simp [hp]
    · rw [if_neg hp, ih]
      simp only [List.mem_cons]
      constructor
      · intro h hmem
        rcases hmem with he | hmem
        · exact hp he.symm
        · exact h hmem
      · exact fun h hmem => h (Or.inr hmem)

/-- `updateIndex` preserves the key list. -/
theorem map_fst_updateIndex (l : Index) (k : String)
    (f : SourceEntry → SourceEntry) :
    (updateIndex l k f).map Prod.fst = l.map Prod.fst := by
  induction l with
  | nil => rfl
  | cons p rest ih =>
    by_cases hp : p.1 = k
    · simp [updateIndex, hp, ih]
    · simp [updateIndex, hp, ih]

/-- An entry of an updated index whose key differs from the updated key was
already present. -/
theorem mem_updateIndex_ne {l : Index} {k : String}
    {f : SourceEntry → SourceEntry} {p : String × SourceEntry}
    (hp : p ∈ updateIndex l k f) (hne : p.1 ≠ k) : p ∈ l := by
  induction l with
  | nil => cases hp
  | cons q rest ih =>
    rw [updateIndex] at hp
    by_cases hq : q.1 = k
    · rw [if_pos hq] at hp
      rcases List.mem_cons.1 hp with rfl | hm
      · exact absurd hq hne
      · exact List.mem_cons_of_mem _ (ih hm)
    · rw [if_neg hq] at hp
      rcases List.mem_cons.1 hp with rfl | hm
      · exact List.mem_cons_self _ _
      · exact List.mem_cons_of_mem _ (ih hm)

/-- With unique keys, when exactly the record keyed `A` satisfies the
predicate, the filtered key list is `[A]`. -/
theorem filter_keys_single {l : Index} {pred : String × SourceEntry → Bool}
    {A : String} (hnodup : (l.map Prod.fst).Nodup)
    (hA : ∃ eA, lookupIndex l A = some eA ∧ pred (A, eA) = true)
    (hother : ∀ p ∈ l, p.1 ≠ A → pred p = false) :
    (l.filter pred).map Prod.fst = [A] := by
  induction l with
  | nil =>
    rcases hA with ⟨eA, h, _⟩
    cases h
  | cons p rest ih =>
    rw [List.map_cons] at hnodup
    by_cases hp : p.1 = A
    · rcases hA with ⟨eA, hlk, hpred⟩
      rw [lookupIndex, if_pos hp] at hlk
      injection hlk with hlk
      have hpA : p = (A, eA) := by
        obtain ⟨p1, p2⟩ := p
        simp only at hp hlk
        rw [hp, hlk]
      have hrest : rest.filter pred = [] := by
        rw [List.filter_eq_nil_iff]
        intro q hq
        have hqA : q.1 ≠ A := by
          intro he
          apply (List.nodup_cons.1 hnodup).1
          rw [hp, ← he]
          exact List.mem_map_of_mem Prod.fst hq
        simp [hother q (List.mem_cons_of_mem _ hq) hqA]
      rw [List.filter_cons, if_pos (by rw [hpA]; exact hpred), hrest]
      simp [hpA]
    · have hpredp : pred p = false := hother p (List.mem_cons_self p rest) hp
      rw [List.filter_cons, if_neg (by simp [hpredp])]
      apply ih (List.nodup_cons.1 hnodup).2
      · rcases hA with ⟨eA, hlk, hpred⟩
        rw [lookupIndex, if_neg hp] at hlk
        exact ⟨eA, hlk, hpred⟩
      · exact fun q hq => hother q (List.mem_cons_of_mem _ hq)

/-- A record with at most 10 tasks is left alone by the retention prune. -/
theorem pruneRecord_of_small (entry : SourceEntry)
    (h : entry.tasks.length ≤ 10) : pruneRecord entry = entry := by
  rw [pruneRecord, if_neg (by omega)]

/-- The derived hash just appended is in the record's set.  -/
theorem appendDerived_mem (derived : List String) {B : String} (hB : B ≠ "") :
    B ∈ appendDerived derived (some B) := by
  rw [appendDerived]
  by_cases hmem : B ∈ derived
  · rw [if_neg (by simp [hmem])]
    exact hmem
  · rw [if_pos ⟨hB, hmem⟩]
    simp

/-- After `recordAdd` with a non-empty derived hash and no retention prune
(at most 9 retained tasks), the derived hash is in the record's set. -/
theorem recordAdd_derived_mem (r : SourceEntry) (e : TaskEntry) {B : String}
    (hB : B ≠ "") (hlen : r.tasks.length ≤ 9) :
    B ∈ (recordAdd r e (some B)).derived_md5s := by
  rw [recordAdd, pruneRecord_of_small _ (by
    show (r.tasks ++ [e]).length ≤ 10
    simp only [List.length_append, List.length_cons, List.length_nil]
    omega)]
  show B ∈ appendDerived r.derived_md5s (some B)
  exact appendDerived_mem r.derived_md5s hB

/-- Counterexample to C4 as stated: when the derived (output) hash is already
a record key of the index — here `bb` was previously processed as an original
artifact — `record_success("aa", "bb")` leaves resolution of `bb` at the key
branch: `resolve("bb")` returns `bb` itself, not the record key `aa` under
which the success was recorded. -/
theorem C4_resolve_output_counterexample :
    find_source_md5
      (add_task_to_index [("bb", ⟨"bb", [], []⟩)] "aa"
        ⟨"t1", "pkg", "arm64-v8a", "p1", "bb", 5⟩ (some "bb")) "bb" =
      some "bb" ∧
    find_source_md5
      (add_task_to_index [("bb", ⟨"bb", [], []⟩)] "aa"
        ⟨"t1", "pkg", "arm64-v8a", "p1", "bb", 5⟩ (some "bb")) "bb" ≠
      some "aa" := by
  refine ⟨by decide, by decide⟩

/-- C4 amended: immediately after `record_success(A, B)`, `resolve(B)` returns
the record key `A`, provided the output hash is lowercase, is not an index
key other than `A`, appears in no other record's derived set, and the record
held at most 9 entries before the call (so the new entry is not pruned). -/
theorem C4_resolve_output_returns_source (index : Index) (A B : String)
    (e : TaskEntry)
    (hnodup : (index.map Prod.fst).Nodup)
    (hlow : pyLower B = B)
    (hkey : lookupIndex index B = none ∨ B = A)
    (hother : ∀ p ∈ index, p.1 ≠ A → B ∉ p.2.derived_md5s)
    (hB : B ≠ "")
    (hsize : ∀ r, lookupIndex index A = some r → r.tasks.length ≤ 9) :
    find_source_md5 (add_task_to_index index A e (some B)) B = some A := by
  by_cases hBA : B = A
  · subst hBA
    have hl := lookupIndex_add_task index B e (some B)
    simp only [find_source_md5, hlow, hl]
    simp
  · rcases hkey with hkeyn | hk
    · have hl2 : lookupIndex (add_task_to_index index A e (some B)) B = none := by
        simp only [add_task_to_index]
        cases hl : lookupIndex index A with
        | some r =>
          simp only [hl, Option.isSome_some, if_true]
          rw [lookupIndex_updateIndex_ne hBA]
          exact hkeyn
        | none =>
          simp only [hl, Option.isSome_none, Bool.false_eq_true, if_false]
          rw [lookupIndex_updateIndex_ne hBA, lookupIndex_append hkeyn,
            lookupIndex, if_neg (fun h => hBA h.symm), lookupIndex]
      have hnodup2 :
          ((add_task_to_index index A e (some B)).map Prod.fst).Nodup := by
        simp only [add_task_to_index]
        cases hl : lookupIndex index A with
        | some r =>
          simp only [hl, Option.isSome_some, if_true]
          rw [map_fst_updateIndex]
          exact hnodup
        | none =>
          simp only [hl, Option.isSome_none, Bool.false_eq_true, if_false]
          rw [map_fst_updateIndex, List.map_append]
          simp only [List.map_cons, List.map_nil]
          rw [List.nodup_append]
          exact ⟨hnodup, List.nodup_singleton A,
            by simpa using fun hmm => (lookupIndex_eq_none.1 hl) hmm⟩
      have hAmem : ∃ eA,
          lookupIndex (add_task_to_index index A e (some B)) A = some eA ∧
          (fun p : String × SourceEntry =>
            decide (B ∈ p.2.derived_md5s)) (A, eA) = true := by
        rw [lookupIndex_add_task]
        refine ⟨_, rfl, decide_eq_true ?_⟩
        cases hl : lookupIndex index A with
        | some r =>
          simp only
          exact recordAdd_derived_mem r e hB (hsize r hl)
        | none =>
          simp only
          exact recordAdd_derived_mem ⟨A, [], []⟩ e hB (by simp)
      have hothers2 : ∀ p ∈ add_task_to_index index A e (some B), p.1 ≠ A →
          (fun p : String × SourceEntry =>
            decide (B ∈ p.2.derived_md5s)) p = false := by
        intro p hp hpA
        have hpIdx : p ∈ index := by
          simp only [add_task_to_index] at hp
          cases hl : lookupIndex index A with
          | some r =>
            rw [hl] at hp
            simp only [Option.isSome_some, if_true] at hp
            exact mem_updateIndex_ne hp hpA
          | none =>
            rw [hl] at hp
            simp only [Option.isSome_none, Bool.false_eq_true, if_false] at hp
            have hp2 := mem_updateIndex_ne hp hpA
            rcases List.mem_append.1 hp2 with hm | hm
            · exact hm
            · exfalso
              rcases List.mem_cons.1 hm with rfl | hm2
              · exact hpA rfl
              · cases hm2
        simp [hother p hpIdx hpA]
      have hfilter := filter_keys_single hnodup2 hAmem hothers2
      simp only [find_source_md5, hlow, hl2, Option.isSome_none,
        Bool.false_eq_true, if_false, hfilter]
      simp
    · exact absurd hk hBA

/-- Witness for C4 amended: a fresh original hash `aa` with derived hash `bb`
alongside an unrelated record `cc`. -/
theorem C4_resolve_output_returns_source_witness :
    (([("cc", ⟨"cc", ["dd"], []⟩)] : Index).map Prod.fst).Nodup ∧
    pyLower "bb" = "bb" ∧
    lookupIndex [("cc", ⟨"cc", ["dd"], []⟩)] "bb" = none ∧
    (∀ p ∈ ([("cc", ⟨"cc", ["dd"], []⟩)] : Index), p.1 ≠ "aa" →
      "bb" ∉ p.2.derived_md5s) ∧
    find_source_md5
      (add_task_to_index [("cc", ⟨"cc", ["dd"], []⟩)] "aa"
        ⟨"t1", "pkg", "arm64-v8a", "p1", "bb", 5⟩ (some "bb")) "bb" =
      some "aa" :=
  ⟨by decide, by decide, by decide, by decide,
    C4_resolve_output_returns_source [("cc", ⟨"cc", ["dd"], []⟩)] "aa" "bb"
      ⟨"t1", "pkg", "arm64-v8a", "p1", "bb", 5⟩ (by decide) (by decide)
      (Or.inl (by decide)) (by decide) (by decide)
      (fun r h => Option.noConfusion h)⟩

/-! Retention (claim C3): facts about the descending sort and the prune. -/

/-- The sort is a permutation of its input. -/
theorem sortByTimestampDesc_perm (l : List TaskEntry) :
    sortByTimestampDesc l ~ l :=
  List.mergeSort_perm l _

/-- The sort is descending in timestamps. -/
theorem sortByTimestampDesc_sorted (l : List TaskEntry) :
    List.Pairwise (fun a b : TaskEntry => b.timestamp ≤ a.timestamp)
      (sortByTimestampDesc l) := by
  have h := @List.sorted_mergeSort TaskEntry
    (fun a b : TaskEntry => decide (b.timestamp ≤ a.timestamp))
    (fun a b c hab hbc => by
      simp only [decide_eq_true_eq] at hab hbc ⊢
      omega)
    (fun a b => by
      simp only [Bool.or_eq_true, decide_eq_true_eq]
      omega) l
  exact h.imp (fun hab => of_decide_eq_true hab)

/-- In the sorted-descending list, everything dropped is no newer than
anything kept. -/
theorem sortDesc_take_drop_rel {l : List TaskEntry} {y z : TaskEntry}
    (k : Nat) (hy : y ∈ (sortByTimestampDesc l).take k)
    (hz : z ∈ (sortByTimestampDesc l).drop k) :
    z.timestamp ≤ y.timestamp :=
  List.Sorted.rel_of_mem_take_of_mem_drop (sortByTimestampDesc_sorted l) hy hz

/-- Membership in the derived set after the conditional append. -/
theorem mem_appendDerived {derived : List String} {B : String} (hB : B ≠ "")
    (h : String) :
    h ∈ appendDerived derived (some B) ↔ h ∈ derived ∨ h = B := by
  rw [appendDerived]
  by_cases hmem : B ∈ derived
  · rw [if_neg (by simp [hmem])]
    constructor
    · exact Or.inl
    · rintro (hh | rfl)
      · exact hh
      · exact hmem
  · rw [if_pos ⟨hB, hmem⟩]
    simp

/-- One `record_success`-style update of a record: `recordAdd` with the
entry's own derived hash, as the pipeline performs it. -/
def recStep (r : SourceEntry) (e : TaskEntry) : SourceEntry :=
  recordAdd r e (some e.file_md5_after)

/-- Invariant of a record under repeated `recStep`: the retained history is
the bounded most-recent selection of everything processed so far, and the
derived set is exactly the hashes of the retained history. -/
def RetentionInv (processed : List TaskEntry) (r : SourceEntry) : Prop :=
  r.tasks.length = min processed.length 10 ∧
  (processed.length ≤ 10 → r.tasks = processed) ∧
  r.tasks <+~ processed ∧
  (∀ d ∈ processed, d ∉ r.tasks → ∀ t ∈ r.tasks, d.timestamp ≤ t.timestamp) ∧
  ∀ h, h ∈ r.derived_md5s ↔ ∃ t ∈ r.tasks, t.file_md5_after = h

/-- The invariant is preserved by one `recStep`. -/
theorem retentionInv_step {processed : List TaskEntry} {r : SourceEntry}
    (inv : RetentionInv processed r) (e : TaskEntry)
    (hmd5 : ∀ x ∈ processed ++ [e], x.file_md5_after ≠ "") :
    RetentionInv (processed ++ [e]) (recStep r e) := by
  obtain ⟨hlen, heq, hsub, hdom, hder⟩ := inv
  have he : e.file_md5_after ≠ "" :=
    hmd5 e (List.mem_append_right _ (List.mem_cons_self e []))
  by_cases hsmall : processed.length ≤ 9
  · have hrlen : r.tasks.length = processed.length := by
      rw [hlen, Nat.min_eq_left (by omega)]
    have htaskeq : r.tasks = processed := heq (by omega)
    have hnoprune : recStep r e = { r with
        derived_md5s := appendDerived r.derived_md5s (some e.file_md5_after)
        tasks := r.tasks ++ [e] } := by
      rw [recStep, recordAdd, pruneRecord_of_small]
      show (r.tasks ++ [e]).length ≤ 10
      simp only [List.length_append, List.length_cons, List.length_nil]
      omega
    rw [hnoprune]
    refine ⟨?_, ?_, ?_, ?_, ?_⟩
    · show (r.tasks ++ [e]).length = min (processed ++ [e]).length 10
      simp only [List.length_append, List.length_cons, List.length_nil, htaskeq]
      rw [Nat.min_eq_left (by omega)]
    · intro _
      show r.tasks ++ [e] = processed ++ [e]
      rw [htaskeq]
    · show r.tasks ++ [e] <+~ processed ++ [e]
      rw [htaskeq]
    · intro d hd hdnot t ht
      exfalso
      apply hdnot
      show d ∈ r.tasks ++ [e]
      rw [htaskeq]
      exact hd
    · intro h
      show h ∈ appendDerived r.derived_md5s (some e.file_md5_after) ↔
        ∃ t ∈ r.tasks ++ [e], t.file_md5_after = h
      rw [mem_appendDerived he]
      constructor
      · rintro (hh | rfl)
        · rcases (hder h).1 hh with ⟨t, ht, hmd⟩
          exact ⟨t, List.mem_append_left _ ht, hmd⟩
        · exact ⟨e, List.mem_append_right _ (List.mem_cons_self e []), rfl⟩
      · rintro ⟨t, ht, rfl⟩
        rcases List.mem_append.1 ht with htr | hte
        · exact Or.inl ((hder _).2 ⟨t, htr, rfl⟩)
        · have hte' : t = e := by simpa using hte
          subst hte'
          exact Or.inr rfl
  · have hrlen : r.tasks.length = 10 := by
      rw [hlen, Nat.min_eq_right (by omega)]
    have hprune : recStep r e = { r with
        derived_md5s :=
          (((sortByTimestampDesc (r.tasks ++ [e])).take 10).filterMap (fun t =>
            if t.file_md5_after ≠ "" then some t.file_md5_after else none)).dedup
        tasks := (sortByTimestampDesc (r.tasks ++ [e])).take 10 } := by
      rw [recStep, recordAdd, pruneRecord, if_pos]
      show (r.tasks ++ [e]).length > 10
      simp only [List.length_append, List.length_cons, List.length_nil]
      omega
    have hperm : sortByTimestampDesc (r.tasks ++ [e]) ~ r.tasks ++ [e] :=
      sortByTimestampDesc_perm _
    have hslen : (sortByTimestampDesc (r.tasks ++ [e])).length = 11 := by
      rw [hperm.length_eq]
      simp only [List.length_append, List.length_cons, List.length_nil]
      omega
    have hkeptlen :
        ((sortByTimestampDesc (r.tasks ++ [e])).take 10).length = 10 := by
      rw [List.length_take, hslen]
      omega
    have hdroplen :
        ((sortByTimestampDesc (r.tasks ++ [e])).drop 10).length = 1 := by
      rw [List.length_drop, hslen]
    have hsubkept :
        (sortByTimestampDesc (r.tasks ++ [e])).take 10 <+~ processed ++ [e] := by
      refine List.Subperm.trans
        (List.Subperm.trans (List.take_sublist 10 _).subperm hperm.subperm) ?_
      obtain ⟨w, hw1, hw2⟩ := hsub
      exact ⟨w ++ [e], hw1.append_right [e], hw2.append (List.Sublist.refl [e])⟩
    rw [hprune]
    refine ⟨?_, ?_, ?_, ?_, ?_⟩
    · show ((sortByTimestampDesc (r.tasks ++ [e])).take 10).length =
        min (processed ++ [e]).length 10
      rw [hkeptlen]
      simp only [List.length_append, List.length_cons, List.length_nil]
      rw [Nat.min_eq_right (by omega)]
    · intro habs
      exfalso
      simp only [List.length_append, List.length_cons, List.length_nil] at habs
      omega
    · exact hsubkept
    · intro d hd hdnot t ht
      by_cases hdl : d ∈ r.tasks ++ [e]
      · have hds : d ∈ sortByTimestampDesc (r.tasks ++ [e]) :=
          hperm.mem_iff.2 hdl
        rw [← List.take_append_drop 10 (sortByTimestampDesc (r.tasks ++ [e]))]
          at hds
        rcases List.mem_append.1 hds with hk | hdd
        · exact absurd hk hdnot
        · exact sortDesc_take_drop_rel 10 ht hdd
      · have hdp : d ∈ processed := by
          rcases List.mem_append.1 hd with hh | hh
          · exact hh
          · exfalso
            apply hdl
            have hde : d = e := by simpa using hh
            rw [hde]
            exact List.mem_append_right _ (List.mem_cons_self e [])
        have hdnr : d ∉ r.tasks := fun hh => hdl (List.mem_append_left _ hh)
        have hdom' := hdom d hdp hdnr
        by_cases htR : t ∈ r.tasks
        · exact hdom' t htR
        · have htl : t ∈ r.tasks ++ [e] :=
            hperm.subset ((List.take_sublist 10 _).subset ht)
          have hte : t = e := by
            rcases List.mem_append.1 htl with hh | hh
            · exact absurd hh htR
            · simpa using hh
          subst hte
          obtain ⟨x, hx⟩ := List.length_eq_one.1 hdroplen
          have hxl : x ∈ r.tasks ++ [t] := by
            apply hperm.subset
            apply (List.drop_sublist 10 _).subset
            rw [hx]
            exact List.mem_cons_self x []
          by_cases hxR : x ∈ r.tasks
          · refine Nat.le_trans (hdom' x hxR) ?_
            refine sortDesc_take_drop_rel 10 ht ?_
            rw [hx]
            exact List.mem_cons_self x []
          · exfalso
            have hxe : x = t := by
              rcases List.mem_append.1 hxl with hh | hh
              · exact absurd hh hxR
              · simpa using hh
            have hcount :
                List.count t (sortByTimestampDesc (r.tasks ++ [t])) = 1 := by
              rw [hperm.count_eq, List.count_append,
                List.count_eq_zero_of_not_mem htR]
              simp
            have hsplit := congrArg (List.count t)
              (List.take_append_drop 10 (sortByTimestampDesc (r.tasks ++ [t])))
            rw [List.count_append] at hsplit
            have c1 : 1 ≤ List.count t
                ((sortByTimestampDesc (r.tasks ++ [t])).take 10) :=
              List.one_le_count_iff.2 ht
            have c2 : 1 ≤ List.count t
                ((sortByTimestampDesc (r.tasks ++ [t])).drop 10) := by
              rw [hx, hxe]
              simp
            rw [hcount] at hsplit
            omega
    · intro h
      constructor
      · intro hh
        rw [List.mem_dedup, List.mem_filterMap] at hh
        obtain ⟨a, ha, hfa⟩ := hh
        by_cases hne : a.file_md5_after ≠ ""
        · rw [if_pos hne] at hfa
          injection hfa with hfa
          exact ⟨a, ha, hfa⟩
        · rw [if_neg hne] at hfa
          cases hfa
      · rintro ⟨t, ht, rfl⟩
        rw [List.mem_dedup, List.mem_filterMap]
        refine ⟨t, ht, ?_⟩
        rw [if_pos (hmd5 t (hsubkept.subset ht))]

/-- The index produced by a sequence of successful `record_success` calls for
one original hash, starting from an empty index: each call is
`add_task_to_index index A summary (derived_md5 := summary.file_md5_after)`
exactly as the pipeline's finalize stage performs it. -/
def record_success_fold (A : String) (calls : List TaskEntry) : Index :=
  calls.foldl (fun index e => add_task_to_index index A e (some e.file_md5_after)) []

/-- `add_task_to_index` on the singleton index of its own key. -/
theorem add_task_singleton (A : String) (r : SourceEntry) (e : TaskEntry)
    (d : Option String) :
    add_task_to_index [(A, r)] A e d = [(A, recordAdd r e d)] := by
  have hl : lookupIndex [(A, r)] A = some r := by
    rw [lookupIndex, if_pos rfl]
  simp only [add_task_to_index, hl, Option.isSome_some, if_true]
  rw [updateIndex, if_pos rfl, updateIndex]

/-- `add_task_to_index` on the empty index creates and updates the record. -/
theorem add_task_nil (A : String) (e : TaskEntry) (d : Option String) :
    add_task_to_index [] A e d = [(A, recordAdd ⟨A, [], []⟩ e d)] := by
  simp only [add_task_to_index, lookupIndex, Option.isSome_none,
    Bool.false_eq_true, if_false, List.nil_append]
  rw [updateIndex, if_pos rfl, updateIndex]

/-- Folding calls over a singleton index folds `recStep` over the record. -/
theorem foldl_add_singleton (A : String) (calls : List TaskEntry)
    (r : SourceEntry) :
    calls.foldl (fun index e => add_task_to_index index A e
      (some e.file_md5_after)) [(A, r)] = [(A, calls.foldl recStep r)] := by
  induction calls generalizing r with
  | nil => rfl
  | cons c cs ih =>
    rw [List.foldl_cons, add_task_singleton, ih, List.foldl_cons]
    rfl

/-- The record produced by a non-empty call sequence from the empty index. -/
theorem record_success_fold_eq (A : String) (calls : List TaskEntry)
    (hne : calls ≠ []) :
    record_success_fold A calls =
      [(A, calls.foldl recStep ⟨A, [], []⟩)] := by
  cases calls with
  | nil => exact absurd rfl hne
  | cons c cs =>
    rw [record_success_fold, List.foldl_cons, add_task_nil,
      foldl_add_singleton, List.foldl_cons]
    rfl

/-- The invariant holds along any fold of `recStep`. -/
theorem retentionInv_foldl (calls : List TaskEntry) :
    ∀ (processed : List TaskEntry) (r : SourceEntry),
      RetentionInv processed r →
      (∀ x ∈ processed ++ calls, x.file_md5_after ≠ "") →
      RetentionInv (processed ++ calls) (calls.foldl recStep r) := by
  induction calls with
  | nil =>
    intro processed r inv _
    simpa using inv
  | cons c cs ih =>
    intro processed r inv hmd5
    have hstep := retentionInv_step inv c (fun x hx => hmd5 x (by
      rcases List.mem_append.1 hx with hh | hh
      · exact List.mem_append_left _ hh
      · simp only [List.mem_singleton] at hh
        subst hh
        exact List.mem_append_right _ (List.mem_cons_self x cs)))
    have hrec := ih (processed ++ [c]) (recStep r c) hstep (fun x hx => by
      apply hmd5 x
      rw [List.append_assoc] at hx
      simpa using hx)
    rw [List.foldl_cons]
    rw [List.append_assoc] at hrec
    simpa using hrec

/-- The invariant at the start: empty record, nothing processed. -/
theorem retentionInv_base (A : String) : RetentionInv [] ⟨A, [], []⟩ := by
  refine ⟨rfl, fun _ => rfl, List.Subperm.refl _, ?_, ?_⟩
  · intro d hd
    cases hd
  · intro h
    simp

/-- C3: after more than 10 successful `record_success` calls for one original
hash (each summary carrying a non-empty derived hash, as every successful
pipeline run produces), the record's history has length exactly 10, consists
of entries drawn from the calls (without duplication beyond multiplicity),
every evicted entry's timestamp is at most every retained entry's timestamp
(the retained 10 are the most recent by timestamp, ties notwithstanding), and
`derived_md5s` holds exactly the derived hashes of the retained history. -/
theorem C3_retention_after_more_than_ten (A : String)
    (calls : List TaskEntry) (hn : calls.length > 10)
    (hmd5 : ∀ x ∈ calls, x.file_md5_after ≠ "") :
    ∃ rec, lookupIndex (record_success_fold A calls) A = some rec ∧
      rec.tasks.length = 10 ∧
      rec.tasks <+~ calls ∧
      (∀ d ∈ calls, d ∉ rec.tasks → ∀ t ∈ rec.tasks,
        d.timestamp ≤ t.timestamp) ∧
      ∀ h, h ∈ rec.derived_md5s ↔ ∃ t ∈ rec.tasks, t.file_md5_after = h := by
  have hne : calls ≠ [] := by
    intro habs
    rw [habs] at hn
    cases hn
  have hinv := retentionInv_foldl calls [] ⟨A, [], []⟩ (retentionInv_base A)
    (by simpa using hmd5)
  rw [List.nil_append] at hinv
  obtain ⟨h1, _, h3, h4, h5⟩ := hinv
  refine ⟨calls.foldl recStep ⟨A, [], []⟩, ?_, ?_, h3, h4, h5⟩
  · rw [record_success_fold_eq A calls hne, lookupIndex, if_pos rfl]
  · rw [h1, Nat.min_eq_right (by omega)]

/-- Witness for C3: eleven successful calls with distinct timestamps. -/
theorem C3_retention_witness :
    ([⟨"t1", "pkg", "arm64-v8a", "p", "d1", 1⟩,
      ⟨"t2", "pkg", "arm64-v8a", "p", "d2", 2⟩,
      ⟨"t3", "pkg", "arm64-v8a", "p", "d3", 3⟩,
      ⟨"t4", "pkg", "arm64-v8a", "p", "d4", 4⟩,
      ⟨"t5", "pkg", "arm64-v8a", "p", "d5", 5⟩,
      ⟨"t6", "pkg", "arm64-v8a", "p", "d6", 6⟩,
      ⟨"t7", "pkg", "arm64-v8a", "p", "d7", 7⟩,
      ⟨"t8", "pkg", "arm64-v8a", "p", "d8", 8⟩,
      ⟨"t9", "pkg", "arm64-v8a", "p", "d9", 9⟩,
      ⟨"ta", "pkg", "arm64-v8a", "p", "da", 10⟩,
      ⟨"tb", "pkg", "arm64-v8a", "p", "db", 11⟩] : List TaskEntry).length > 10 ∧
    ∃ rec, lookupIndex (record_success_fold "aa"
        [⟨"t1", "pkg", "arm64-v8a", "p", "d1", 1⟩,
         ⟨"t2", "pkg", "arm64-v8a", "p", "d2", 2⟩,
         ⟨"t3", "pkg", "arm64-v8a", "p", "d3", 3⟩,
         ⟨"t4", "pkg", "arm64-v8a", "p", "d4", 4⟩,
         ⟨"t5", "pkg", "arm64-v8a", "p", "d5", 5⟩,
         ⟨"t6", "pkg", "arm64-v8a", "p", "d6", 6⟩,
         ⟨"t7", "pkg", "arm64-v8a", "p", "d7", 7⟩,
         ⟨"t8", "pkg", "arm64-v8a", "p", "d8", 8⟩,
         ⟨"t9", "pkg", "arm64-v8a", "p", "d9", 9⟩,
         ⟨"ta", "pkg", "arm64-v8a", "p", "da", 10⟩,
         ⟨"tb", "pkg", "arm64-v8a", "p", "db", 11⟩]) "aa" = some rec ∧
      rec.tasks.length = 10 ∧
      rec.tasks <+~
        [⟨"t1", "pkg", "arm64-v8a", "p", "d1", 1⟩,
         ⟨"t2", "pkg", "arm64-v8a", "p", "d2", 2⟩,
         ⟨"t3", "pkg", "arm64-v8a", "p", "d3", 3⟩,
         ⟨"t4", "pkg", "arm64-v8a", "p", "d4", 4⟩,
         ⟨"t5", "pkg", "arm64-v8a", "p", "d5", 5⟩,
         ⟨"t6", "pkg", "arm64-v8a", "p", "d6", 6⟩,
         ⟨"t7", "pkg", "arm64-v8a", "p", "d7", 7⟩,
         ⟨"t8", "pkg", "arm64-v8a", "p", "d8", 8⟩,
         ⟨"t9", "pkg", "arm64-v8a", "p", "d9", 9⟩,
         ⟨"ta", "pkg", "arm64-v8a", "p", "da", 10⟩,
         ⟨"tb", "pkg", "arm64-v8a", "p", "db", 11⟩] ∧
      (∀ d ∈ ([⟨"t1", "pkg", "arm64-v8a", "p", "d1", 1⟩,
         ⟨"t2", "pkg", "arm64-v8a", "p", "d2", 2⟩,
         ⟨"t3", "pkg", "arm64-v8a", "p", "d3", 3⟩,
         ⟨"t4", "pkg", "arm64-v8a", "p", "d4", 4⟩,
         ⟨"t5", "pkg", "arm64-v8a", "p", "d5", 5⟩,
         ⟨"t6", "pkg", "arm64-v8a", "p", "d6", 6⟩,
         ⟨"t7", "pkg", "arm64-v8a", "p", "d7", 7⟩,
         ⟨"t8", "pkg", "arm64-v8a", "p", "d8", 8⟩,
         ⟨"t9", "pkg", "arm64-v8a", "p", "d9", 9⟩,
         ⟨"ta", "pkg", "arm64-v8a", "p", "da", 10⟩,
         ⟨"tb", "pkg", "arm64-v8a", "p", "db", 11⟩] : List TaskEntry),
        d ∉ rec.tasks → ∀ t ∈ rec.tasks, d.timestamp ≤ t.timestamp) ∧
      ∀ h, h ∈ rec.derived_md5s ↔ ∃ t ∈ rec.tasks, t.file_md5_after = h :=
  ⟨by decide,
    C3_retention_after_more_than_ten "aa"
      [⟨"t1", "pkg", "arm64-v8a", "p", "d1", 1⟩,
       ⟨"t2", "pkg", "arm64-v8a", "p", "d2", 2⟩,
       ⟨"t3", "pkg", "arm64-v8a", "p", "d3", 3⟩,
       ⟨"t4", "pkg", "arm64-v8a", "p", "d4", 4⟩,
       ⟨"t5", "pkg", "arm64-v8a", "p", "d5", 5⟩,
       ⟨"t6", "pkg", "arm64-v8a", "p", "d6", 6⟩,
       ⟨"t7", "pkg", "arm64-v8a", "p", "d7", 7⟩,
       ⟨"t8", "pkg", "arm64-v8a", "p", "d8", 8⟩,
       ⟨"t9", "pkg", "arm64-v8a", "p", "d9", 9⟩,
       ⟨"ta", "pkg", "arm64-v8a", "p", "da", 10⟩,
       ⟨"tb", "pkg", "arm64-v8a", "p", "db", 11⟩] (by decide) (by decide)⟩

end ApkServer
